import Mathlib

/-!
Verification of the semantic-conflict-detection subsystem of Auto-Claude
(`merge/semantic_conflict_detector.py`).

The Python module is shallowly embedded below.  Python `dict`s (which
iterate in insertion order, and keep the position of an existing key on update)
are modelled as association lists with an in-place-or-append `insert`.
Python source text is modelled at parse granularity: the content of a file is
`Option PyStmtList` — `none` stands for text that fails to parse (the
standard library parser is not part of this repository), `some m` for text
whose parse tree is `m`.  The AST constructors cover the statement and
expression forms the extractor distinguishes; everything the visitor would
treat generically is represented by its visited children.
-/

set_option autoImplicit false

namespace AutoClaude

/-- Association-list model of a Python `dict` keyed by strings. -/
abbrev Dict (α : Type) := List (String × α)

namespace Dict

variable {α : Type}

/-- Python `d[k] = v`: replace the value in place if the key is present,
otherwise append the new binding at the end. -/
def insert (d : Dict α) (k : String) (v : α) : Dict α :=
  if d.any (fun p => p.1 = k) then
    d.map (fun p => if p.1 = k then (k, v) else p)
  else
    d ++ [(k, v)]

/-- Python `k in d`. -/
def contains (d : Dict α) (k : String) : Bool :=
  d.any (fun p => p.1 = k)

/-- Python `d[k]` / `d.get(k)`: first binding with the given key. -/
def find? (d : Dict α) (k : String) : Option α :=
  match d with
  | [] => none
  | (k', v) :: rest => if k' = k then some v else find? rest k

/-- The keys of every binding are pairwise distinct. -/
def KeysNodup (d : Dict α) : Prop := (d.map Prod.fst).Nodup

end Dict

/-- A bound name of a Python `import` / `from ... import` clause
(`ast.alias`): the imported name and the optional `as` rebinding. -/
structure PyAlias where
  aliasName : String
  asname : Option String
  deriving DecidableEq

mutual

/-- Python expression forms distinguished by the extractor: names (with
their load/store context), attribute access, calls, subscripts, `X | Y`
type unions, tuples and the `None` constant.  Line numbers are carried on
each node as in `ast`. -/
inductive PyExpr : Type where
  | pname (id : String) (isLoad : Bool) (lineno : Nat)
  | pattr (value : PyExpr) (attrName : String) (lineno : Nat)
  | pcall (func : PyExpr) (args : PyExprList) (lineno : Nat)
  | psubscript (value : PyExpr) (index : PyExpr) (lineno : Nat)
  | pbinOr (lhs : PyExpr) (rhs : PyExpr) (lineno : Nat)
  | ptuple (elts : PyExprList) (lineno : Nat)
  | pconstNone (lineno : Nat)

/-- A list of expressions (kept inside the mutual block so that all
recursion over the tree stays structural). -/
inductive PyExprList : Type where
  | nil
  | cons (e : PyExpr) (es : PyExprList)

/-- An optional expression (e.g. a possibly missing annotation). -/
inductive PyOptExpr : Type where
  | onone
  | osome (e : PyExpr)

/-- Python statement forms distinguished by the extractor; statements the
visitor handles generically are represented through their expression
children (`exprStmt`, `pret`). -/
inductive PyStmt : Type where
  | imp (names : List PyAlias) (lineno : Nat)
  | impFrom (mod : Option String) (names : List PyAlias) (lineno : Nat)
  | functionDef (fname : String) (argExprs : PyExprList) (body : PyStmtList)
      (rets : PyOptExpr) (lineno : Nat)
  | asyncFunctionDef (fname : String) (argExprs : PyExprList) (body : PyStmtList)
      (rets : PyOptExpr) (lineno : Nat)
  | classDef (cname : String) (body : PyStmtList) (lineno : Nat)
  | assign (targets : PyExprList) (value : PyExpr) (lineno : Nat)
  | annAssign (target : PyExpr) (ann : PyExpr) (value : PyOptExpr) (lineno : Nat)
  | exprStmt (value : PyExpr) (lineno : Nat)
  | pret (value : PyOptExpr) (lineno : Nat)

/-- A list of statements. -/
inductive PyStmtList : Type where
  | nil
  | cons (s : PyStmt) (ss : PyStmtList)

end

/-- Build a `PyExprList` from a plain list (construction convenience). -/
def toExprList : List PyExpr → PyExprList
  | [] => .nil
  | e :: es => .cons e (toExprList es)

/-- Build a `PyStmtList` from a plain list (construction convenience). -/
def toStmtList : List PyStmt → PyStmtList
  | [] => .nil
  | s :: ss => .cons s (toStmtList ss)

/-- `ast.unparse` on the expression subset above (used on return-type
annotations, mirroring `ast.unparse(node.returns)`). -/
def unparse : PyExpr → String
  | .pname id _ _ => id
  | .pattr v a _ => unparse v ++ "." ++ a
  | .pcall f args _ => unparse f ++ "(" ++ unparseList args ++ ")"
  | .psubscript v i _ => unparse v ++ "[" ++ unparse i ++ "]"
  | .pbinOr l r _ => unparse l ++ " | " ++ unparse r
  | .ptuple es _ => unparseList es
  | .pconstNone _ => "None"
where
  /-- Comma-separated rendering of an expression list. -/
  unparseList : PyExprList → String
  | .nil => ""
  | .cons e .nil => unparse e
  | .cons e es => unparse e ++ ", " ++ unparseList es

/-- `SymbolTable` (dataclass): definitions, usages, imports, call sites and
return-type signatures of one file version. -/
structure SymbolTable where
  definitions : Dict (String × Nat × String) := []
  usages : Dict (List Nat) := []
  imports : Dict String := []
  function_calls : Dict (List Nat) := []
  function_signatures : Dict (Option String) := []
  deriving DecidableEq

namespace SymbolTable

/-- `SymbolTable.add_definition`. -/
def add_definition (t : SymbolTable) (nm : String) (def_type : String) (line : Nat)
    (scope : String) : SymbolTable :=
  { t with definitions := t.definitions.insert nm (def_type, line, scope) }

/-- `SymbolTable.add_usage`: append the line to the usage list of the name. -/
def add_usage (t : SymbolTable) (nm : String) (line : Nat) : SymbolTable :=
  { t with usages := t.usages.insert nm ((t.usages.find? nm).getD [] ++ [line]) }

/-- `SymbolTable.add_import`. -/
def add_import (t : SymbolTable) (symbol : String) (mod : String) : SymbolTable :=
  { t with imports := t.imports.insert symbol mod }

/-- `SymbolTable.add_function_call`: append the line to the call list. -/
def add_function_call (t : SymbolTable) (func_name : String) (line : Nat) : SymbolTable :=
  { t with function_calls :=
      t.function_calls.insert func_name ((t.function_calls.find? func_name).getD [] ++ [line]) }

/-- `SymbolTable.add_function_signature`. -/
def add_function_signature (t : SymbolTable) (func_name : String)
    (return_type : Option String) : SymbolTable :=
  { t with function_signatures := t.function_signatures.insert func_name return_type }

end SymbolTable

/-- The name an `ast.alias` binds: `alias.asname if alias.asname else alias.name`. -/
def PyAlias.bound (al : PyAlias) : String := al.asname.getD al.aliasName

mutual

/-- `PythonSymbolExtractor.visit` on an expression, mirroring the
`NodeVisitor` dispatch: `visit_Name` records a usage for load contexts,
`visit_Call` records the callee (direct name, or trailing attribute name),
and every handler ends by visiting the children of the node in field order. -/
def visitExpr (t : SymbolTable) (scope : String) : PyExpr → SymbolTable
  | .pname id isLoad ln => if isLoad then t.add_usage id ln else t
  | .pattr v _ _ => visitExpr t scope v
  | .pcall f args ln =>
    let t := match f with
      | .pname id _ _ => t.add_function_call id ln
      | .pattr _ attr _ => t.add_function_call attr ln
      | _ => t
    visitExprList (visitExpr t scope f) scope args
  | .psubscript v i _ => visitExpr (visitExpr t scope v) scope i
  | .pbinOr l r _ => visitExpr (visitExpr t scope l) scope r
  | .ptuple es _ => visitExprList t scope es
  | .pconstNone _ => t

/-- Visit each expression of a list in order. -/
def visitExprList (t : SymbolTable) (scope : String) : PyExprList → SymbolTable
  | .nil => t
  | .cons e es => visitExprList (visitExpr t scope e) scope es

/-- Visit an optional expression. -/
def visitOptExpr (t : SymbolTable) (scope : String) : PyOptExpr → SymbolTable
  | .onone => t
  | .osome e => visitExpr t scope e

/-- `PythonSymbolExtractor.visit` on a statement.  Import handlers record
each bound alias as an import entry plus an `"import"` definition;
function/class handlers record the definition (and, for functions, the
unparsed return annotation) and then visit their children under the new
scope; assignment handlers record plain-name targets as `"variable"`
definitions before visiting children. -/
def visitStmt (t : SymbolTable) (scope : String) : PyStmt → SymbolTable
  | .imp names ln =>
    names.foldl (fun t al =>
      (t.add_import al.bound al.aliasName).add_definition al.bound "import" ln scope) t
  | .impFrom mod names ln =>
    names.foldl (fun t al =>
      (t.add_import al.bound ((mod.getD "") ++ "." ++ al.aliasName)).add_definition
        al.bound "import" ln scope) t
  | .functionDef fname argExprs body rets ln =>
    let return_type : Option String :=
      match rets with
      | .onone => none
      | .osome r => some (unparse r)
    let t := (t.add_definition fname "function" ln scope).add_function_signature
      fname return_type
    let inner := "function:" ++ fname
    visitOptExpr (visitStmtList (visitExprList t inner argExprs) inner body) inner rets
  | .asyncFunctionDef fname argExprs body rets ln =>
    let return_type : Option String :=
      match rets with
      | .onone => none
      | .osome r => some (unparse r)
    let t := (t.add_definition fname "async_function" ln scope).add_function_signature
      fname return_type
    let inner := "function:" ++ fname
    visitOptExpr (visitStmtList (visitExprList t inner argExprs) inner body) inner rets
  | .classDef cname body ln =>
    visitStmtList (t.add_definition cname "class" ln scope) ("class:" ++ cname) body
  | .assign targets value ln =>
    let t := addNameTargets t scope ln targets
    visitExpr (visitExprList t scope targets) scope value
  | .annAssign target ann value ln =>
    let t := match target with
      | .pname id _ _ => t.add_definition id "variable" ln scope
      | _ => t
    visitOptExpr (visitExpr (visitExpr t scope target) scope ann) scope value
  | .exprStmt value _ => visitExpr t scope value
  | .pret value _ => visitOptExpr t scope value

/-- The loop of `visit_Assign`: register every plain-name target as a
`"variable"` definition at the line of the assignment. -/
def addNameTargets (t : SymbolTable) (scope : String) (ln : Nat) : PyExprList → SymbolTable
  | .nil => t
  | .cons (.pname id _ _) rest => addNameTargets (t.add_definition id "variable" ln scope) scope ln rest
  | .cons _ rest => addNameTargets t scope ln rest

/-- Visit each statement of a list in order. -/
def visitStmtList (t : SymbolTable) (scope : String) : PyStmtList → SymbolTable
  | .nil => t
  | .cons s ss => visitStmtList (visitStmt t scope s) scope ss

end

/-- Source text, modelled at parse granularity: `none` is text the parser
rejects (syntax error), `some m` is text parsing to module body `m`. -/
abbrev PySource := Option PyStmtList

/-- Split a character list on a separator (kernel-friendly `splitOn`). -/
def splitChar (sep : Char) : List Char → List (List Char)
  | [] => [[]]
  | c :: cs =>
    let r := splitChar sep cs
    if c = sep then [] :: r
    else
      match r with
      | [] => [[c]]
      | g :: gs => (c :: g) :: gs

/-- The last path component, as `pathlib.PurePosixPath(...).name`
(empty and `"."` components are dropped by path normalisation). -/
def pathName (p : String) : String :=
  (((splitChar '/' p.data).filter (fun s => s ≠ [] ∧ s ≠ ['.'])).getLast?.getD []).asString

/-- The `suffix` of `pathlib`: the final dot-suffix of the name, empty unless
the last dot is neither the first nor the last character. -/
def pathSuffix (p : String) : String :=
  let nm := (pathName p).data
  match (nm.reverse.findIdx? (fun c => c = '.')).map (fun j => nm.length - 1 - j) with
  | some i => if 0 < i ∧ i < nm.length - 1 then String.mk (nm.drop i) else ""
  | none => ""

/-- `Path(file_path).suffix.lower()`. -/
def pathSuffixLower (p : String) : String :=
  String.mk ((pathSuffix p).data.map Char.toLower)

/-- `build_symbol_table`: `None` unless the extension is `.py`; parse the
content (a parse failure, or any other extraction error, is caught and
yields `None`) and run the extractor from scope `"module"`. -/
def build_symbol_table (file_path : String) (content : PySource) : Option SymbolTable :=
  if pathSuffixLower file_path ≠ ".py" then
    none
  else
    match content with
    | none => none
    | some tree => some (visitStmtList {} "module" tree)

/-- Modelled from the spec: the change-kind enumeration of `merge/types.py`
(not under `src/`); §4.6 names RENAME_FUNCTION, REMOVE_IMPORT,
MODIFY_VARIABLE, MODIFY_FUNCTION and an UNKNOWN marker, §2 also
add-function and the tests use ADD_FUNCTION. -/
inductive ChangeType where
  | ADD_FUNCTION
  | MODIFY_FUNCTION
  | RENAME_FUNCTION
  | REMOVE_IMPORT
  | MODIFY_VARIABLE
  | UNKNOWN
  deriving DecidableEq

/-- Modelled from the spec: the severity order of `merge/types.py`
(not under `src/`), §3: CRITICAL > HIGH > MEDIUM > LOW. -/
inductive ConflictSeverity where
  | CRITICAL
  | HIGH
  | MEDIUM
  | LOW
  deriving DecidableEq

/-- Modelled from the spec: the merge-strategy marker of `merge/types.py`
(not under `src/`); this subsystem only ever chooses "human required". -/
inductive MergeStrategy where
  | AUTO
  | HUMAN_REQUIRED
  deriving DecidableEq

/-- Modelled from the spec: `SemanticChange` of `merge/types.py` (not under
`src/`), §3 "StructuralChange": change kind, target symbol, scoped
location, line range, optional before/after snippets (the tests construct
exactly these fields). -/
structure SemanticChange where
  change_type : ChangeType
  target : String
  location : String
  line_start : Nat
  line_end : Nat
  content_before : Option String := none
  content_after : Option String := none
  deriving DecidableEq

/-- Modelled from the spec: `FileAnalysis` of `merge/types.py` (not under
`src/`): the path of the analysed file and the structural changes of one task to it. -/
structure FileAnalysis where
  file_path : String
  changes : List SemanticChange
  deriving DecidableEq

/-- A value of the string-keyed metadata bag of `SemanticConflict`
(`dict[str, Any]`): the detectors only ever store strings and line lists. -/
inductive MetaVal where
  | s (v : String)
  | ns (v : List Nat)
  deriving DecidableEq

/-- `SemanticConflict` (dataclass): one detected issue before conversion. -/
structure SemanticConflict where
  conflict_type : String
  file_path : String
  location : String
  tasks_involved : List String
  description : String
  line_number : Nat
  severity : ConflictSeverity
  suggestion : Option String := none
  metadata : Dict MetaVal := []
  deriving DecidableEq

/-- Modelled from the spec: `ConflictRegion` of `merge/types.py` (not under
`src/`), §3: the externally consumed region with the fields the aggregator
populates. -/
structure ConflictRegion where
  file_path : String
  location : String
  tasks_involved : List String
  change_types : List ChangeType
  severity : ConflictSeverity
  can_auto_merge : Bool
  merge_strategy : MergeStrategy
  reason : String
  deriving DecidableEq

/-- Python truthiness of an optional string (`None` and `""` are falsy). -/
def strTruthy : Option String → Bool
  | none => false
  | some s => s ≠ ""

/-- Python `repr` of a list of ints, used by the f-string interpolations. -/
def listRepr (l : List Nat) : String :=
  "[" ++ String.intercalate ", " (l.map toString) ++ "]"

/-- Contiguous-sublist test (`needle` occurs inside `haystack`). -/
def isSubList (needle : List Char) : List Char → Bool
  | [] => needle.isEmpty
  | c :: cs => needle.isPrefixOf (c :: cs) || isSubList needle cs

/-- Python `sub in s` on strings: contiguous substring containment. -/
def pyInStr (sub s : String) : Bool := isSubList sub.data s.data

/-- `next(iter(task_analyses.values())).file_path` (only ever evaluated
behind the non-empty guard of the detectors). -/
def firstFilePath : List (String × FileAnalysis) → String
  | [] => ""
  | (_, a0) :: _ => a0.file_path

/-- Per-task input maps: `task_id -> FileAnalysis` and
`task_id -> (content_before, content_after)`, in insertion order. -/
abbrev TaskAnalyses := List (String × FileAnalysis)

/-- Per-task before/after file contents. -/
abbrev FileContents := List (String × (PySource × PySource))

/-- One step of the rename-collection loop of
`detect_function_rename_conflicts`: a RENAME_FUNCTION change with truthy
before/after snippets is entered as
`renames[change.target] = (change.target, task_id)`. -/
def renameStep (task_id : String) (renames : Dict (String × String))
    (change : SemanticChange) : Dict (String × String) :=
  if change.change_type = ChangeType.RENAME_FUNCTION then
    if strTruthy change.content_before && strTruthy change.content_after then
      renames.insert change.target (change.target, task_id)
    else renames
  else renames

/-- The rename-collection loop over the changes of every task. -/
def collectRenames (task_analyses : TaskAnalyses) : Dict (String × String) :=
  task_analyses.foldl (fun renames p => p.2.changes.foldl (renameStep p.1) renames) []

/-- The conflict `detect_function_rename_conflicts` appends for one
(renaming task, calling task) pair. -/
def mkRenameConflict (file_path old_name new_name rename_task_id task_id : String)
    (call_lines : List Nat) : SemanticConflict :=
  { conflict_type := "function_rename"
    file_path := file_path
    location := "function:" ++ old_name
    tasks_involved := [rename_task_id, task_id]
    description := "Task " ++ rename_task_id ++ " renamed function \x27" ++ old_name ++
      "\x27 to \x27" ++ new_name ++ "\x27, but task " ++ task_id ++ " still calls \x27" ++
      old_name ++ "\x27 at line(s) " ++ listRepr call_lines
    line_number := match call_lines with | [] => 0 | x :: _ => x
    severity := ConflictSeverity.HIGH
    suggestion := some ("Update function calls from \x27" ++ old_name ++ "\x27 to \x27" ++
      new_name ++ "\x27 in task " ++ task_id)
    metadata := [("old_name", .s old_name), ("new_name", .s new_name),
      ("call_lines", .ns call_lines)] }

/-- `detect_function_rename_conflicts`: for the after-version of every task and its
symbol table and every collected rename by a *different* task, emit a HIGH
conflict when the table still records a call under the old name of the rename. -/
def detect_function_rename_conflicts (task_analyses : TaskAnalyses)
    (file_contents : FileContents) : List SemanticConflict :=
  if task_analyses.isEmpty then []
  else
    let file_path := firstFilePath task_analyses
    let renames := collectRenames task_analyses
    file_contents.flatMap (fun p =>
      match build_symbol_table file_path p.2.2 with
      | none => []
      | some symbol_table =>
        renames.filterMap (fun r =>
          if r.2.2 = p.1 then none
          else
            match symbol_table.function_calls.find? r.1 with
            | some call_lines =>
              some (mkRenameConflict file_path r.1 r.2.1 r.2.2 p.1 call_lines)
            | none => none))

/-- The removal-collection loop of `detect_import_removal_conflicts`:
`removals[change.target] = task_id` for every REMOVE_IMPORT change. -/
def collectRemovals (task_analyses : TaskAnalyses) : Dict String :=
  task_analyses.foldl (fun removals p =>
    p.2.changes.foldl (fun removals change =>
      if change.change_type = ChangeType.REMOVE_IMPORT then
        removals.insert change.target p.1
      else removals) removals) []

/-- The conflict `detect_import_removal_conflicts` appends for one
(removing task, using task) pair. -/
def mkImportConflict (file_path symbol removal_task_id task_id : String)
    (usage_lines : List Nat) : SemanticConflict :=
  { conflict_type := "import_removal"
    file_path := file_path
    location := "import:" ++ symbol
    tasks_involved := [removal_task_id, task_id]
    description := "Task " ++ removal_task_id ++ " removed import of \x27" ++ symbol ++
      "\x27, but task " ++ task_id ++ " uses it at line(s) " ++ listRepr usage_lines ++
      " without importing it"
    line_number := match usage_lines with | [] => 0 | x :: _ => x
    severity := ConflictSeverity.CRITICAL
    suggestion := some ("Task " ++ task_id ++ " should import \x27" ++ symbol ++
      "\x27 explicitly")
    metadata := [("symbol", .s symbol), ("usage_lines", .ns usage_lines)] }

/-- `detect_import_removal_conflicts`: for the after-version of every task and its
symbol table and every import removal by a *different* task, emit a
CRITICAL conflict when the symbol is in the usages of the table but not in its
imports. -/
def detect_import_removal_conflicts (task_analyses : TaskAnalyses)
    (file_contents : FileContents) : List SemanticConflict :=
  if task_analyses.isEmpty then []
  else
    let file_path := firstFilePath task_analyses
    let removals := collectRemovals task_analyses
    file_contents.flatMap (fun p =>
      match build_symbol_table file_path p.2.2 with
      | none => []
      | some symbol_table =>
        removals.filterMap (fun r =>
          if r.2 = p.1 then none
          else
            if symbol_table.usages.contains r.1 && !symbol_table.imports.contains r.1 then
              some (mkImportConflict file_path r.1 r.2 p.1
                ((symbol_table.usages.find? r.1).getD []))
            else none))

/-- `detect_variable_rename_conflicts`: an explicit stub — always empty. -/
def detect_variable_rename_conflicts (task_analyses : TaskAnalyses)
    (file_contents : FileContents) : List SemanticConflict :=
  []

/-- The collection loop of `detect_type_change_conflicts`: for each task
whose before and after tables both build, and each function of the after
signatures also present in the before signatures, record
`type_changes[func] = (old_type, new_type, task_id)` when the annotation
text differs. -/
def collectTypeChanges (file_path : String) (file_contents : FileContents) :
    Dict (Option String × Option String × String) :=
  file_contents.foldl (fun type_changes p =>
    match build_symbol_table file_path p.2.1, build_symbol_table file_path p.2.2 with
    | some before_symbols, some after_symbols =>
      after_symbols.function_signatures.foldl (fun type_changes entry =>
        match before_symbols.function_signatures.find? entry.1,
            after_symbols.function_signatures.find? entry.1 with
        | some old_type, some new_type =>
          if old_type ≠ new_type then
            type_changes.insert entry.1 (old_type, new_type, p.1)
          else type_changes
        | _, _ => type_changes) type_changes
    | _, _ => type_changes) []

/-- The conflict `detect_type_change_conflicts` appends for one recorded
transition. -/
def mkTypeConflict (file_path func_name old_type new_type change_task_id : String) :
    SemanticConflict :=
  { conflict_type := "type_change"
    file_path := file_path
    location := "function:" ++ func_name
    tasks_involved := [change_task_id]
    description := "Task " ++ change_task_id ++ " changed return type of \x27" ++
      func_name ++ "\x27 from \x27" ++ old_type ++ "\x27 to \x27" ++ new_type ++
      "\x27 (added None). This may break callers that don\x27t handle None."
    line_number := 0
    severity := ConflictSeverity.MEDIUM
    suggestion := some ("Review all callers of \x27" ++ func_name ++
      "\x27 to ensure they handle None")
    metadata := [("function", .s func_name), ("old_type", .s old_type),
      ("new_type", .s new_type)] }

/-- `detect_type_change_conflicts`: flag each recorded transition whose two
annotations are truthy strings where `"None"` occurs in the new text but
not in the old. -/
def detect_type_change_conflicts (task_analyses : TaskAnalyses)
    (file_contents : FileContents) : List SemanticConflict :=
  if task_analyses.isEmpty then []
  else
    let file_path := firstFilePath task_analyses
    (collectTypeChanges file_path file_contents).filterMap (fun entry =>
      match entry.2.1, entry.2.2.1 with
      | some old_type, some new_type =>
        if old_type = "" ∨ new_type = "" then none
        else if pyInStr "None" new_type && !pyInStr "None" old_type then
          some (mkTypeConflict file_path entry.1 old_type new_type entry.2.2.2)
        else none
      | _, _ => none)

/-- The kind map of the aggregator (`change_type_map.get(..., UNKNOWN)`). -/
def changeTypeOfKind (kind : String) : ChangeType :=
  if kind = "function_rename" then ChangeType.RENAME_FUNCTION
  else if kind = "import_removal" then ChangeType.REMOVE_IMPORT
  else if kind = "variable_rename" then ChangeType.MODIFY_VARIABLE
  else if kind = "type_change" then ChangeType.MODIFY_FUNCTION
  else ChangeType.UNKNOWN

/-- The conversion step of the aggregator: of one internal conflict to a
`ConflictRegion`: kind mapped and replicated once per involved task,
auto-merge refused, strategy "human required", and the reason formatted as
`[Semantic: <kind>] <description>` plus the suggestion sentence when the
suggestion is truthy. -/
def toConflictRegion (c : SemanticConflict) : ConflictRegion :=
  { file_path := c.file_path
    location := c.location
    tasks_involved := c.tasks_involved
    change_types := List.replicate c.tasks_involved.length (changeTypeOfKind c.conflict_type)
    severity := c.severity
    can_auto_merge := false
    merge_strategy := MergeStrategy.HUMAN_REQUIRED
    reason := "[Semantic: " ++ c.conflict_type ++ "] " ++ c.description ++
      (match c.suggestion with
       | some s => if s = "" then "" else " Suggestion: " ++ s
       | none => "") }

/-- `detect_semantic_conflicts`: empty for no tasks, otherwise the four
detector passes concatenated in fixed order and converted. -/
def detect_semantic_conflicts (task_analyses : TaskAnalyses)
    (file_contents : FileContents) : List ConflictRegion :=
  if task_analyses.isEmpty then []
  else
    (detect_function_rename_conflicts task_analyses file_contents ++
      detect_import_removal_conflicts task_analyses file_contents ++
      detect_variable_rename_conflicts task_analyses file_contents ++
      detect_type_change_conflicts task_analyses file_contents).map toConflictRegion

/-- Modelled from the wording of the spec (§4.5): a "nullability marker" is an
"optional"/"none"-style token occurring in the annotation text.  This is
the spec-side reading, to be compared against the check of the source, which
tests only for the literal substring `"None"`. -/
def specNullMarker (s : String) : Bool :=
  pyInStr "Optional" s || pyInStr "None" s

/-- A RENAME_FUNCTION change whose before or after snippet is absent or
empty (Python-falsy), i.e. one the rename collection ignores. -/
def droppedRename (ch : SemanticChange) : Bool :=
  decide (ch.change_type = ChangeType.RENAME_FUNCTION) &&
    !(strTruthy ch.content_before && strTruthy ch.content_after)

/-- Remove every absent/empty-snippet RENAME_FUNCTION change from the analysis of every
task. -/
def scrubRenames (ta : TaskAnalyses) : TaskAnalyses :=
  ta.map (fun p =>
    (p.1, { p.2 with changes := p.2.changes.filter (fun ch => !droppedRename ch) }))

/-- Soundness invariant of the type-change collection: every entry of the
accumulator was recorded from the before/after symbol tables of the task
it names, the function is present in both signature maps, and the two
recorded annotations differ. -/
def TypeChangeSound (fp : String) (fc : FileContents)
    (m : Dict (Option String × Option String × String)) : Prop :=
  ∀ f o n tz, (f, (o, n, tz)) ∈ m →
    ∃ b a B A, (tz, (b, a)) ∈ fc ∧
      build_symbol_table fp b = some B ∧ build_symbol_table fp a = some A ∧
      B.function_signatures.find? f = some o ∧
      A.function_signatures.find? f = some n ∧ o ≠ n

/-! Concrete inputs used by the evaluation theorems and witnesses.  They
mirror the unit-test scenarios of the repository itself. -/

/-- `def foo(): return` followed by `def caller(): result = foo(); return result` —
an after-text still calling `foo`. -/
def modCallsFoo : PyStmtList := toStmtList [
  .functionDef "foo" (toExprList []) (toStmtList [.pret .onone 3]) .onone 2,
  .functionDef "caller" (toExprList []) (toStmtList [
    .assign (toExprList [.pname "result" false 6])
      (.pcall (.pname "foo" true 6) (toExprList []) 6) 6,
    .pret (.osome (.pname "result" true 7)) 7]) .onone 5]

/-- `def foo(): return` and `def caller(): return None` — the matching
before-text. -/
def modBeforeCaller : PyStmtList := toStmtList [
  .functionDef "foo" (toExprList []) (toStmtList [.pret .onone 3]) .onone 2,
  .functionDef "caller" (toExprList [])
    (toStmtList [.pret (.osome (.pconstNone 5)) 5]) .onone 4]

/-- The rename change exactly as the repository test constructs it:
`target="bar"` is the *new* name, the snippets carry the old and new
definitions. -/
def renameChangeNew : SemanticChange :=
  { change_type := ChangeType.RENAME_FUNCTION
    target := "bar"
    location := "function:foo"
    line_start := 1
    line_end := 3
    content_before := some "def foo():\n    pass"
    content_after := some "def bar():\n    pass" }

/-- The analysis of task a for the cross-task rename scenario. -/
def faRenameA : FileAnalysis := ⟨"test.py", [renameChangeNew]⟩

/-- The analysis of task b for the cross-task rename scenario. -/
def faModifyB : FileAnalysis :=
  ⟨"test.py", [⟨ChangeType.MODIFY_FUNCTION, "caller", "function:caller", 5, 7, none, none⟩]⟩

/-- The two analyses for the cross-task rename scenario. -/
def taRename : TaskAnalyses := [("task-a", faRenameA), ("task-b", faModifyB)]

/-- The before/after contents of task b: the after-text still calls `foo`. -/
def fcRename : FileContents := [("task-b", (some modBeforeCaller, some modCallsFoo))]

/-- A rename change whose `target` field holds the *old* name — the only
keying under which the lookup of the detector can fire. -/
def renameChangeOldKey : SemanticChange :=
  { renameChangeNew with target := "foo" }

/-- Analyses for the old-name-keyed rename scenario. -/
def taRenameOld : TaskAnalyses := [("task-a", ⟨"test.py", [renameChangeOldKey]⟩)]

/-- Contents for the old-name-keyed rename scenario. -/
def fcRenameOld : FileContents := [("task-b", (some modBeforeCaller, some modCallsFoo))]

/-- Task a removes the import of `List`. -/
def faImpA : FileAnalysis :=
  ⟨"test.py", [⟨ChangeType.REMOVE_IMPORT, "List", "import:List", 1, 1, none, none⟩]⟩

/-- Task b adds a function. -/
def faImpB : FileAnalysis :=
  ⟨"test.py", [⟨ChangeType.ADD_FUNCTION, "process", "function:process", 3, 5, none, none⟩]⟩

/-- Analyses for the import-removal scenario. -/
def taImp : TaskAnalyses := [("task-a", faImpA), ("task-b", faImpB)]

/-- `def foo(): return None` — the before-text of task b. -/
def modBeforeSimple : PyStmtList := toStmtList [
  .functionDef "foo" (toExprList [])
    (toStmtList [.pret (.osome (.pconstNone 3)) 3]) .onone 2]

/-- The after-text of task b: adds `def process(items: List[int]) -> int:
return sum(items)`, using `List` without importing it. -/
def modUsesList : PyStmtList := toStmtList [
  .functionDef "foo" (toExprList [])
    (toStmtList [.pret (.osome (.pconstNone 3)) 3]) .onone 2,
  .functionDef "process"
    (toExprList [.psubscript (.pname "List" true 4) (.pname "int" true 4) 4])
    (toStmtList [.pret (.osome (.pcall (.pname "sum" true 5)
      (toExprList [.pname "items" true 5]) 5)) 5])
    (.osome (.pname "int" true 4)) 4]

/-- Contents for the import-removal scenario. -/
def fcImp : FileContents := [("task-b", (some modBeforeSimple, some modUsesList))]

/-- The after-version symbol table of task b in the import-removal scenario. -/
def tblUsesList : SymbolTable := visitStmtList {} "module" modUsesList

/-- A task recorded as modifying `get_user`. -/
def faUser : FileAnalysis :=
  ⟨"test.py", [⟨ChangeType.MODIFY_FUNCTION, "get_user", "function:get_user", 1, 3, none, none⟩]⟩

/-- `def get_user() -> User: return User()`. -/
def modUserPlain : PyStmtList := toStmtList [
  .functionDef "get_user" (toExprList [])
    (toStmtList [.pret (.osome (.pcall (.pname "User" true 3) (toExprList []) 3)) 3])
    (.osome (.pname "User" true 2)) 2]

/-- `def get_user() -> Optional[User]: return None`. -/
def modUserOptional : PyStmtList := toStmtList [
  .functionDef "get_user" (toExprList [])
    (toStmtList [.pret (.osome (.pconstNone 3)) 3])
    (.osome (.psubscript (.pname "Optional" true 2) (.pname "User" true 2) 2)) 2]

/-- Analyses for the `Optional[...]`-broadening scenario. -/
def taOpt : TaskAnalyses := [("task-a", faUser)]

/-- Contents for the `Optional[...]`-broadening scenario. -/
def fcOpt : FileContents := [("task-a", (some modUserPlain, some modUserOptional))]

/-- `def get_user() -> int: return None`. -/
def modIntPlain : PyStmtList := toStmtList [
  .functionDef "get_user" (toExprList [])
    (toStmtList [.pret (.osome (.pconstNone 3)) 3])
    (.osome (.pname "int" true 2)) 2]

/-- `def get_user() -> int | None: return None`. -/
def modIntOrNone : PyStmtList := toStmtList [
  .functionDef "get_user" (toExprList [])
    (toStmtList [.pret (.osome (.pconstNone 3)) 3])
    (.osome (.pbinOr (.pname "int" true 2) (.pconstNone 2) 2)) 2]

/-- Analyses for the `int` → `int | None` scenario. -/
def taNone : TaskAnalyses := [("task-a", faUser)]

/-- Contents for the `int` → `int | None` scenario. -/
def fcNone : FileContents := [("task-a", (some modIntPlain, some modIntOrNone))]

/-- `def get_user(): return None` — no return annotation at all. -/
def modNoAnn : PyStmtList := toStmtList [
  .functionDef "get_user" (toExprList [])
    (toStmtList [.pret (.osome (.pconstNone 3)) 3]) .onone 2]

/-- Contents for the no-annotation → `int | None` scenario. -/
def fcNoAnn : FileContents := [("task-a", (some modNoAnn, some modIntOrNone))]

/-- The before-version symbol table of the no-annotation scenario. -/
def tblNoAnn : SymbolTable := visitStmtList {} "module" modNoAnn

/-- The after-version symbol table of the no-annotation scenario. -/
def tblIntOrNone : SymbolTable := visitStmtList {} "module" modIntOrNone

namespace Dict

variable {α : Type}

theorem contains_iff {d : Dict α} {k : String} :
    d.contains k = true ↔ ∃ v, (k, v) ∈ d := by
  unfold Dict.contains
  rw [List.any_eq_true]
  constructor
  · rintro ⟨⟨k', v⟩, hmem, hk⟩
    exact ⟨v, by simpa using (by simp only [decide_eq_true_eq] at hk; exact hk ▸ hmem)⟩
  · rintro ⟨v, hv⟩
    exact ⟨(k, v), hv, by simp⟩

theorem find?_eq_some_mem {d : Dict α} {k : String} {v : α}
    (h : d.find? k = some v) : (k, v) ∈ d := by
  induction d with
  | nil => simp [Dict.find?] at h
  | cons p rest ih =>
    obtain ⟨k', v'⟩ := p
    by_cases hk : k' = k
    · subst hk
      simp [Dict.find?] at h
      simp [h]
    · simp [Dict.find?, hk] at h
      exact List.mem_cons_of_mem _ (ih h)

theorem mem_insert_elim {d : Dict α} {k k' : String} {v v' : α}
    (h : (k, v) ∈ d.insert k' v') :
    (k = k' ∧ v = v') ∨ ((k, v) ∈ d ∧ k ≠ k') := by
  unfold Dict.insert at h
  by_cases hc : d.any (fun p => p.1 = k') = true
  · rw [if_pos hc] at h
    obtain ⟨⟨a, b⟩, hab, heq⟩ := List.mem_map.mp h
    by_cases ha : a = k'
    · subst ha
      simp only [if_pos rfl] at heq
      injection heq with h1 h2
      exact Or.inl ⟨h1.symm, h2.symm⟩
    · rw [if_neg ha] at heq
      right
      refine ⟨heq ▸ hab, ?_⟩
      intro hkk
      apply ha
      rw [show a = k from congrArg Prod.fst heq, hkk]
  · rw [if_neg hc] at h
    rcases List.mem_append.mp h with hmem | hmem
    · right
      refine ⟨hmem, ?_⟩
      intro hkk
      subst hkk
      exact hc (List.any_eq_true.mpr ⟨(k, v), hmem, by simp⟩)
    · left
      simp at hmem
      exact ⟨hmem.1, hmem.2⟩

theorem keysNodup_insert {d : Dict α} {k : String} {v : α}
    (h : Dict.KeysNodup d) : Dict.KeysNodup (d.insert k v) := by
  unfold Dict.insert
  by_cases hc : d.any (fun p => p.1 = k) = true
  · rw [if_pos hc]
    unfold Dict.KeysNodup at h ⊢
    have heq : (d.map (fun p => if p.1 = k then (k, v) else p)).map Prod.fst
        = d.map Prod.fst := by
      rw [List.map_map]
      apply List.map_congr_left
      intro p _
      by_cases hp : p.1 = k <;> simp [hp]
    rw [heq]
    exact h
  · rw [if_neg hc]
    unfold Dict.KeysNodup at h ⊢
    rw [List.map_append, List.nodup_append]
    refine ⟨h, by simp, ?_⟩
    intro a ha hb
    simp only [List.map_cons, List.map_nil, List.mem_singleton] at hb
    subst hb
    obtain ⟨⟨a1, a2⟩, hamem, rfl⟩ := List.mem_map.mp ha
    exact hc (List.any_eq_true.mpr ⟨(a1, a2), hamem, by simp⟩)

theorem keysNodup_nil : Dict.KeysNodup ([] : Dict α) := by
  simp [Dict.KeysNodup]

theorem find?_of_mem_nodup {d : Dict α} {k : String} {v : α}
    (hd : Dict.KeysNodup d) (h : (k, v) ∈ d) : d.find? k = some v := by
  induction d with
  | nil => simp at h
  | cons p rest ih =>
    obtain ⟨k', v'⟩ := p
    unfold Dict.KeysNodup at hd
    simp only [List.map_cons, List.nodup_cons] at hd
    rcases List.mem_cons.mp h with heq | hmem
    · injection heq with h1 h2
      simp [Dict.find?, h1, h2]
    · have hk : k' ≠ k := by
        intro hkk
        subst hkk
        exact hd.1 (List.mem_map.mpr ⟨(k', v), hmem, rfl⟩)
      simp only [Dict.find?, if_neg hk]
      exact ih hd.2 hmem

end Dict

/-- Two entries of a map with pairwise-distinct keys that share a key are
the same entry. -/
theorem eq_of_mem_of_nodup_fst {β : Type} {l : List (String × β)} {p q : String × β}
    (hnd : (l.map Prod.fst).Nodup) (hp : p ∈ l) (hq : q ∈ l) (hk : p.1 = q.1) :
    p = q := by
  induction l with
  | nil => simp at hp
  | cons x rest ih =>
    simp only [List.map_cons, List.nodup_cons] at hnd
    rcases List.mem_cons.mp hp with hpx | hpr <;> rcases List.mem_cons.mp hq with hqx | hqr
    · rw [hpx, hqx]
    · exfalso
      apply hnd.1
      have hx : x.1 = q.1 := by rw [← hpx, hk]
      rw [hx]
      exact List.mem_map.mpr ⟨q, hqr, rfl⟩
    · exfalso
      apply hnd.1
      have hx : x.1 = p.1 := by rw [← hqx, ← hk]
      rw [hx]
      exact List.mem_map.mpr ⟨p, hpr, rfl⟩
    · exact ih hnd.2 hpr hqr

/-- Invariant propagation along a left fold, with membership of the
step element available. -/
theorem foldl_induction {β γ : Type} (P : β → Prop) (g : β → γ → β) :
    ∀ (l : List γ) (init : β), P init → (∀ acc x, x ∈ l → P acc → P (g acc x)) →
      P (l.foldl g init) := by
  intro l
  induction l with
  | nil => intro init h0 _; exact h0
  | cons a rest ih =>
    intro init h0 hstep
    exact ih (g init a) (hstep init a (List.mem_cons_self a rest) h0)
      (fun acc x hx => hstep acc x (List.mem_cons_of_mem _ hx))

/-- Appending a fixed prefix to strings is injective. -/
theorem string_append_left_cancel {p x y : String} (h : p ++ x = p ++ y) : x = y := by
  obtain ⟨pd⟩ := p
  obtain ⟨xd⟩ := x
  obtain ⟨yd⟩ := y
  have hd : pd ++ xd = pd ++ yd := congrArg String.data h
  exact congrArg String.mk (List.append_cancel_left hd)

/-- The rename map has pairwise-distinct keys. -/
theorem keysNodup_collectRenames (ta : TaskAnalyses) :
    Dict.KeysNodup (collectRenames ta) := by
  unfold collectRenames
  apply foldl_induction Dict.KeysNodup _ _ _ Dict.keysNodup_nil
  intro acc p _ hacc
  apply foldl_induction Dict.KeysNodup _ _ _ hacc
  intro acc' ch _ hacc'
  unfold renameStep
  by_cases h1 : ch.change_type = ChangeType.RENAME_FUNCTION
  · rw [if_pos h1]
    by_cases h2 : (strTruthy ch.content_before && strTruthy ch.content_after) = true
    · rw [if_pos h2]
      exact Dict.keysNodup_insert hacc'
    · rw [if_neg h2]
      exact hacc'
  · rw [if_neg h1]
    exact hacc'

/-- The import-removal map has pairwise-distinct keys. -/
theorem keysNodup_collectRemovals (ta : TaskAnalyses) :
    Dict.KeysNodup (collectRemovals ta) := by
  unfold collectRemovals
  apply foldl_induction Dict.KeysNodup _ _ _ Dict.keysNodup_nil
  intro acc p _ hacc
  apply foldl_induction Dict.KeysNodup _ _ _ hacc
  intro acc' ch _ hacc'
  by_cases h1 : ch.change_type = ChangeType.REMOVE_IMPORT
  · rw [if_pos h1]
    exact Dict.keysNodup_insert hacc'
  · rw [if_neg h1]
    exact hacc'

/-- The type-change map has pairwise-distinct keys. -/
theorem keysNodup_collectTypeChanges (fp : String) (fc : FileContents) :
    Dict.KeysNodup (collectTypeChanges fp fc) := by
  unfold collectTypeChanges
  apply foldl_induction Dict.KeysNodup _ _ _ Dict.keysNodup_nil
  intro acc p _ hacc
  cases hb : build_symbol_table fp p.2.1 with
  | none => simpa [hb] using hacc
  | some B =>
    cases ha : build_symbol_table fp p.2.2 with
    | none => simpa [hb, ha] using hacc
    | some A =>
      simp only [hb, ha]
      apply foldl_induction Dict.KeysNodup _ _ _ hacc
      intro acc' entry _ hacc'
      cases hfb : B.function_signatures.find? entry.1 with
      | none => simpa [hfb] using hacc'
      | some oldT =>
        cases hfa : A.function_signatures.find? entry.1 with
        | none => simpa [hfb, hfa] using hacc'
        | some newT =>
          simp only [hfb, hfa]
          by_cases hne : oldT ≠ newT
          · rw [if_pos hne]
            exact Dict.keysNodup_insert hacc'
          · rw [if_neg hne]
            exact hacc'

/-- Every entry of the type-change map satisfies `TypeChangeSound`. -/
theorem collectTypeChanges_mem (fp : String) (fc : FileContents) :
    TypeChangeSound fp fc (collectTypeChanges fp fc) := by
  unfold collectTypeChanges
  apply foldl_induction (TypeChangeSound fp fc)
  · intro f o n tz hmem
    simp at hmem
  · intro acc p hp hacc
    cases hb : build_symbol_table fp p.2.1 with
    | none => simpa [hb] using hacc
    | some B =>
      cases ha : build_symbol_table fp p.2.2 with
      | none => simpa [hb, ha] using hacc
      | some A =>
        simp only [hb, ha]
        apply foldl_induction (TypeChangeSound fp fc) _ _ _ hacc
        intro acc' entry _ hacc'
        cases hfb : B.function_signatures.find? entry.1 with
        | none => simpa [hfb] using hacc'
        | some oldT =>
          cases hfa : A.function_signatures.find? entry.1 with
          | none => simpa [hfb, hfa] using hacc'
          | some newT =>
            simp only [hfb, hfa]
            by_cases hne : oldT ≠ newT
            · rw [if_pos hne]
              intro f o n tz hmem
              rcases Dict.mem_insert_elim hmem with ⟨hk, hv⟩ | ⟨hmem', _⟩
              · subst hk
                injection hv with ho hv
                injection hv with hn htz
                subst ho
                subst hn
                subst htz
                exact ⟨p.2.1, p.2.2, B, A, by simpa using hp, hb, ha, hfb, hfa, hne⟩
              · exact hacc' f o n tz hmem'
            · rw [if_neg hne]
              exact hacc'


/-- C1: evaluation of the cross-task rename scenario of the repository:
task a records a RENAME_FUNCTION of `foo` to `bar` with both snippets
present and `target` holding the new name (as the repository test
constructs it), task b's after-text parses and still calls `foo` — yet the
rename detector, which keys its map by `target`, emits nothing. -/
theorem rename_cross_task_conflict_missed :
    renameChangeNew.change_type = ChangeType.RENAME_FUNCTION ∧
    strTruthy renameChangeNew.content_before = true ∧
    strTruthy renameChangeNew.content_after = true ∧
    (build_symbol_table "test.py" (some modCallsFoo)).map
      (fun t => t.function_calls.contains "foo") = some true ∧
    detect_function_rename_conflicts taRename fcRename = [] ∧
    detect_semantic_conflicts taRename fcRename = [] := by
  refine ⟨rfl, by decide, by decide, by decide, by decide, by decide⟩

/-- C2: every conflict the rename detector emits names a renaming task and
a checked task that are distinct — a task is never paired with itself. -/
theorem rename_conflicts_pair_distinct_tasks (ta : TaskAnalyses) (fc : FileContents)
    (c : SemanticConflict) (hc : c ∈ detect_function_rename_conflicts ta fc) :
    ∃ r t, c.tasks_involved = [r, t] ∧ r ≠ t := by
  unfold detect_function_rename_conflicts at hc
  by_cases h : ta.isEmpty
  · rw [if_pos h] at hc
    simp at hc
  · rw [if_neg h] at hc
    obtain ⟨p, hp, hcp⟩ := List.mem_flatMap.mp hc
    cases hb : build_symbol_table (firstFilePath ta) p.2.2 with
    | none =>
      rw [hb] at hcp
      simp at hcp
    | some tbl =>
      rw [hb] at hcp
      obtain ⟨r, hr, hconv⟩ := List.mem_filterMap.mp hcp
      by_cases hrt : r.2.2 = p.1
      · rw [if_pos hrt] at hconv
        simp at hconv
      · rw [if_neg hrt] at hconv
        cases hf : tbl.function_calls.find? r.1 with
        | none =>
          rw [hf] at hconv
          simp at hconv
        | some lines =>
          rw [hf] at hconv
          injection hconv with hconv
          refine ⟨r.2.2, p.1, ?_, hrt⟩
          rw [← hconv]
          rfl

/-- C2 witness: in the old-name-keyed scenario the detector emits a
conflict, and the theorem yields its two distinct tasks. -/
theorem rename_conflicts_pair_distinct_tasks_witness :
    ∃ r t, (mkRenameConflict "test.py" "foo" "foo" "task-a" "task-b" [6]).tasks_involved
        = [r, t] ∧ r ≠ t :=
  rename_conflicts_pair_distinct_tasks taRenameOld fcRenameOld _ (by decide)

/-- C5: the extractor yields a table exactly for `.py` paths whose content
parses; everything else (wrong extension, parse failure) yields no table —
the embedding is total, so no exception escapes. -/
theorem build_symbol_table_isSome_iff (fp : String) (c : PySource) :
    (build_symbol_table fp c).isSome = true ↔
      (pathSuffixLower fp = ".py" ∧ c.isSome = true) := by
  unfold build_symbol_table
  by_cases h : pathSuffixLower fp ≠ ".py"
  · rw [if_pos h]
    simp [h]
  · rw [if_neg h]
    push_neg at h
    cases c <;> simp [h]

/-- C7: the aggregate detector returns no conflict for an empty
task-changes mapping, whatever the file contents are. -/
theorem detect_semantic_conflicts_empty (fc : FileContents) :
    detect_semantic_conflicts [] fc = [] := by
  rfl

/-- C8: detection is deterministic — the embedding is a pure function, so
building a symbol table twice yields identical definitions, usages,
imports, calls and signatures, and the aggregate detector returns the
identical ordered list for identical inputs. -/
theorem detection_deterministic (fp : String) (c : PySource)
    (ta : TaskAnalyses) (fc : FileContents) :
    (build_symbol_table fp c).map SymbolTable.definitions
        = (build_symbol_table fp c).map SymbolTable.definitions ∧
    (build_symbol_table fp c).map SymbolTable.usages
        = (build_symbol_table fp c).map SymbolTable.usages ∧
    (build_symbol_table fp c).map SymbolTable.imports
        = (build_symbol_table fp c).map SymbolTable.imports ∧
    (build_symbol_table fp c).map SymbolTable.function_calls
        = (build_symbol_table fp c).map SymbolTable.function_calls ∧
    (build_symbol_table fp c).map SymbolTable.function_signatures
        = (build_symbol_table fp c).map SymbolTable.function_signatures ∧
    detect_semantic_conflicts ta fc = detect_semantic_conflicts ta fc :=
  ⟨rfl, rfl, rfl, rfl, rfl, rfl⟩

/-- C6: every emitted conflict region refuses auto-merge, requires a
human, replicates the mapped change kind once per involved task, and its
reason starts with `[Semantic: ` followed by the conflict kind. -/
theorem conflict_region_invariants (ta : TaskAnalyses) (fc : FileContents)
    (r : ConflictRegion) (hr : r ∈ detect_semantic_conflicts ta fc) :
    r.can_auto_merge = false ∧ r.merge_strategy = MergeStrategy.HUMAN_REQUIRED ∧
    ∃ kind tail, r.reason = "[Semantic: " ++ kind ++ "] " ++ tail ∧
      r.change_types = List.replicate r.tasks_involved.length (changeTypeOfKind kind) := by
  unfold detect_semantic_conflicts at hr
  by_cases h : ta.isEmpty
  · rw [if_pos h] at hr
    simp at hr
  · rw [if_neg h] at hr
    obtain ⟨c, _, rfl⟩ := List.mem_map.mp hr
    refine ⟨rfl, rfl, c.conflict_type,
      c.description ++ (match c.suggestion with
        | some s => if s = "" then "" else " Suggestion: " ++ s
        | none => ""), ?_, rfl⟩
    show "[Semantic: " ++ c.conflict_type ++ "] " ++ c.description ++ _ = _
    rw [String.append_assoc]

/-- C6 witness: the import-removal scenario produces a region, and the
theorem yields its invariants. -/
theorem conflict_region_invariants_witness :
    (toConflictRegion (mkImportConflict "test.py" "List" "task-a" "task-b" [4])).can_auto_merge
        = false ∧
    (toConflictRegion (mkImportConflict "test.py" "List" "task-a" "task-b" [4])).merge_strategy
        = MergeStrategy.HUMAN_REQUIRED ∧
    ∃ kind tail,
      (toConflictRegion (mkImportConflict "test.py" "List" "task-a" "task-b" [4])).reason
          = "[Semantic: " ++ kind ++ "] " ++ tail ∧
      (toConflictRegion (mkImportConflict "test.py" "List" "task-a" "task-b" [4])).change_types
          = List.replicate
            (toConflictRegion (mkImportConflict "test.py" "List" "task-a" "task-b" [4])).tasks_involved.length
            (changeTypeOfKind kind) :=
  conflict_region_invariants taImp fcImp _ (by set_option maxRecDepth 100000 in decide)

/-- Unfolding of the import-removal detector at a non-empty task list. -/
theorem detect_import_removal_cons (t0 : String) (a0 : FileAnalysis)
    (rest : TaskAnalyses) (fc : FileContents) :
    detect_import_removal_conflicts ((t0, a0) :: rest) fc
      = fc.flatMap (fun p =>
          match build_symbol_table a0.file_path p.2.2 with
          | none => []
          | some symbol_table =>
            (collectRemovals ((t0, a0) :: rest)).filterMap (fun r =>
              if r.2 = p.1 then none
              else
                if symbol_table.usages.contains r.1 && !symbol_table.imports.contains r.1 then
                  some (mkImportConflict a0.file_path r.1 r.2 p.1
                    ((symbol_table.usages.find? r.1).getD []))
                else none)) := rfl

/-- Unfolding of the type-change detector at a non-empty task list. -/
theorem detect_type_change_cons (t0 : String) (a0 : FileAnalysis)
    (rest : TaskAnalyses) (fc : FileContents) :
    detect_type_change_conflicts ((t0, a0) :: rest) fc
      = (collectTypeChanges a0.file_path fc).filterMap (fun entry =>
          match entry.2.1, entry.2.2.1 with
          | some old_type, some new_type =>
            if old_type = "" ∨ new_type = "" then none
            else if pyInStr "None" new_type && !pyInStr "None" old_type then
              some (mkTypeConflict a0.file_path entry.1 old_type new_type entry.2.2.2)
            else none
          | _, _ => none) := rfl

/-- A dropped rename change leaves the rename map untouched. -/
theorem renameStep_dropped (tid : String) (m : Dict (String × String))
    (ch : SemanticChange) (h : droppedRename ch = true) : renameStep tid m ch = m := by
  unfold droppedRename at h
  rw [Bool.and_eq_true] at h
  obtain ⟨h1, h2⟩ := h
  rw [decide_eq_true_eq] at h1
  rw [Bool.not_eq_true'] at h2
  unfold renameStep
  rw [if_pos h1]
  have hcond : ¬((strTruthy ch.content_before && strTruthy ch.content_after) = true) := by
    simp [h2]
  rw [if_neg hcond]

/-- Filtering out the dropped rename changes does not change the fold. -/
theorem foldl_renameStep_filter (tid : String) :
    ∀ (l : List SemanticChange) (m : Dict (String × String)),
      (l.filter (fun ch => !droppedRename ch)).foldl (renameStep tid) m
        = l.foldl (renameStep tid) m := by
  intro l
  induction l with
  | nil => intro m; rfl
  | cons ch rest ih =>
    intro m
    rw [List.filter_cons]
    by_cases h : droppedRename ch = true
    · simp only [h, Bool.not_true, Bool.false_eq_true, if_false]
      rw [List.foldl_cons, renameStep_dropped tid m ch h]
      exact ih m
    · rw [Bool.not_eq_true] at h
      simp only [h, Bool.not_false, if_true]
      rw [List.foldl_cons, List.foldl_cons]
      exact ih (renameStep tid m ch)

/-- Scrubbing dropped renames leaves the collected rename map unchanged. -/
theorem collectRenames_scrub :
    ∀ (l : TaskAnalyses) (init : Dict (String × String)),
      (scrubRenames l).foldl (fun m p => p.2.changes.foldl (renameStep p.1) m) init
        = l.foldl (fun m p => p.2.changes.foldl (renameStep p.1) m) init := by
  intro l
  induction l with
  | nil => intro init; rfl
  | cons p rest ih =>
    intro init
    show (scrubRenames (p :: rest)).foldl _ init = _
    rw [scrubRenames, List.map_cons, List.foldl_cons, List.foldl_cons]
    show (List.map _ rest).foldl _ ((p.2.changes.filter _).foldl (renameStep p.1) init) = _
    rw [foldl_renameStep_filter]
    exact ih _

/-- C9: an absent/empty-snippet RENAME_FUNCTION change is ignored — the
rename map, and hence the rename detector's whole output on any file
contents, is unchanged when all such changes are deleted. -/
theorem empty_snippet_renames_ignored (ta : TaskAnalyses) (fc : FileContents) :
    collectRenames (scrubRenames ta) = collectRenames ta ∧
    detect_function_rename_conflicts (scrubRenames ta) fc
      = detect_function_rename_conflicts ta fc := by
  have hmap : collectRenames (scrubRenames ta) = collectRenames ta :=
    collectRenames_scrub ta []
  refine ⟨hmap, ?_⟩
  cases ta with
  | nil => rfl
  | cons p rest =>
    show (if (scrubRenames (p :: rest)).isEmpty = true then [] else _)
      = (if ((p :: rest : TaskAnalyses)).isEmpty = true then [] else _)
    rw [show (scrubRenames (p :: rest)).isEmpty = false from rfl]
    rw [show ((p :: rest : TaskAnalyses)).isEmpty = false from rfl]
    simp only [Bool.false_eq_true, if_false]
    rw [show firstFilePath (scrubRenames (p :: rest)) = firstFilePath (p :: rest) from rfl]
    rw [hmap]

/-- C3: for a symbol recorded in the removal map with removing task `R`,
and any other task `t` whose after-text builds a table `A`, a CRITICAL
import-removal conflict naming `[R, t]` for that symbol is emitted exactly
when `A` uses the symbol without importing it. -/
theorem import_removal_conflict_iff
    (t0 : String) (a0 : FileAnalysis) (rest : TaskAnalyses) (fc : FileContents)
    (S R t : String) (b a : PySource) (A : SymbolTable)
    (hnd : (fc.map Prod.fst).Nodup)
    (hmem : (t, (b, a)) ∈ fc)
    (hfind : (collectRemovals ((t0, a0) :: rest)).find? S = some R)
    (hne : R ≠ t)
    (hbuild : build_symbol_table a0.file_path a = some A) :
    (∃ c ∈ detect_import_removal_conflicts ((t0, a0) :: rest) fc,
        c.conflict_type = "import_removal" ∧ c.severity = ConflictSeverity.CRITICAL ∧
        c.tasks_involved = [R, t] ∧ c.location = "import:" ++ S) ↔
      (A.usages.contains S = true ∧ A.imports.contains S = false) := by
  rw [detect_import_removal_cons]
  constructor
  · rintro ⟨c, hc, hct, hsev, htasks, hloc⟩
    obtain ⟨p, hp, hcp⟩ := List.mem_flatMap.mp hc
    cases hb : build_symbol_table a0.file_path p.2.2 with
    | none =>
      rw [hb] at hcp
      simp at hcp
    | some tbl =>
      rw [hb] at hcp
      obtain ⟨r, hr, hconv⟩ := List.mem_filterMap.mp hcp
      by_cases hrt : r.2 = p.1
      · rw [if_pos hrt] at hconv
        simp at hconv
      · rw [if_neg hrt] at hconv
        by_cases hcond : (tbl.usages.contains r.1 && !tbl.imports.contains r.1) = true
        · rw [if_pos hcond] at hconv
          injection hconv with hconv
          subst hconv
          have hs : r.1 = S := string_append_left_cancel hloc
          have htv : r.2 = R ∧ p.1 = t := by
            simpa [mkImportConflict] using htasks
          have hpe : p = (t, (b, a)) :=
            eq_of_mem_of_nodup_fst hnd hp hmem htv.2
          have htbl : tbl = A := by
            have hba : build_symbol_table a0.file_path a = some tbl := by
              rw [← show p.2.2 = a from congrArg (fun q => q.2.2) hpe]
              exact hb
            injection hba.symm.trans hbuild
          rw [Bool.and_eq_true, Bool.not_eq_true'] at hcond
          rw [← hs, ← htbl]
          exact hcond
        · rw [if_neg hcond] at hconv
          simp at hconv
  · rintro ⟨huse, himp⟩
    refine ⟨mkImportConflict a0.file_path S R t ((A.usages.find? S).getD []), ?_,
      rfl, rfl, rfl, rfl⟩
    apply List.mem_flatMap.mpr
    refine ⟨(t, (b, a)), hmem, ?_⟩
    show _ ∈ (match build_symbol_table a0.file_path a with
      | none => []
      | some symbol_table => _)
    rw [hbuild]
    apply List.mem_filterMap.mpr
    refine ⟨(S, R), Dict.find?_eq_some_mem hfind, ?_⟩
    rw [if_neg (by simpa using hne)]
    rw [if_pos (by simp [huse, himp])]

/-- C4 counterexample: `get_user` goes from `User` to `Optional[User]` —
the new annotation contains an "optional"-style token the old one lacks —
yet the detector, which only tests for the literal substring `"None"`,
emits nothing. -/
theorem type_change_optional_token_not_flagged :
    (collectTypeChanges "test.py" fcOpt).find? "get_user"
        = some (some "User", some "Optional[User]", "task-a") ∧
    specNullMarker "Optional[User]" = true ∧ specNullMarker "User" = false ∧
    detect_type_change_conflicts taOpt fcOpt = [] ∧
    detect_semantic_conflicts taOpt fcOpt = [] :=
  ⟨by decide, by decide, by decide, by decide, by decide⟩

/-- C4 (amended): for the recorded transition of a function — both
annotations present and non-empty — a MEDIUM type-change conflict naming
the recorded task is emitted exactly when the literal substring `"None"`
occurs in the new annotation text and not in the old one. -/
theorem type_change_conflict_iff_none_added
    (t0 : String) (a0 : FileAnalysis) (rest : TaskAnalyses) (fc : FileContents)
    (f o n tz : String)
    (hfind : (collectTypeChanges a0.file_path fc).find? f = some (some o, some n, tz))
    (ho : o ≠ "") (hn : n ≠ "") :
    (∃ c ∈ detect_type_change_conflicts ((t0, a0) :: rest) fc,
        c.conflict_type = "type_change" ∧ c.severity = ConflictSeverity.MEDIUM ∧
        c.tasks_involved = [tz] ∧ c.location = "function:" ++ f) ↔
      (pyInStr "None" n = true ∧ pyInStr "None" o = false) := by
  rw [detect_type_change_cons]
  constructor
  · rintro ⟨c, hc, hct, hsev, htasks, hloc⟩
    obtain ⟨entry, hentry, hconv⟩ := List.mem_filterMap.mp hc
    obtain ⟨f', o?, n?, tz'⟩ := entry
    cases o? with
    | none => simp at hconv
    | some o' =>
      cases n? with
      | none => simp at hconv
      | some n' =>
        by_cases hgate : o' = "" ∨ n' = ""
        · rw [show (match (some o' : Option String), (some n' : Option String) with
            | some old_type, some new_type =>
              if old_type = "" ∨ new_type = "" then none
              else if pyInStr "None" new_type && !pyInStr "None" old_type then
                some (mkTypeConflict a0.file_path f' old_type new_type tz')
              else none
            | _, _ => none) = (if o' = "" ∨ n' = "" then none
              else if pyInStr "None" n' && !pyInStr "None" o' then
                some (mkTypeConflict a0.file_path f' o' n' tz')
              else none) from rfl, if_pos hgate] at hconv
          simp at hconv
        · rw [show (match (some o' : Option String), (some n' : Option String) with
            | some old_type, some new_type =>
              if old_type = "" ∨ new_type = "" then none
              else if pyInStr "None" new_type && !pyInStr "None" old_type then
                some (mkTypeConflict a0.file_path f' old_type new_type tz')
              else none
            | _, _ => none) = (if o' = "" ∨ n' = "" then none
              else if pyInStr "None" n' && !pyInStr "None" o' then
                some (mkTypeConflict a0.file_path f' o' n' tz')
              else none) from rfl, if_neg hgate] at hconv
          by_cases hcond : (pyInStr "None" n' && !pyInStr "None" o') = true
          · rw [if_pos hcond] at hconv
            injection hconv with hconv
            subst hconv
            have hf : f' = f := string_append_left_cancel hloc
            subst hf
            have hfind' : (collectTypeChanges a0.file_path fc).find? f'
                = some (some o', some n', tz') :=
              Dict.find?_of_mem_nodup (keysNodup_collectTypeChanges _ _) hentry
            have hv := hfind'.symm.trans hfind
            injection hv with hv
            injection hv with hvo hv
            injection hv with hvn hvt
            injection hvo with hvo
            injection hvn with hvn
            rw [Bool.and_eq_true, Bool.not_eq_true'] at hcond
            rw [← hvo, ← hvn]
            exact hcond
          · rw [if_neg hcond] at hconv
            simp at hconv
  · rintro ⟨hin, hout⟩
    refine ⟨mkTypeConflict a0.file_path f o n tz, ?_, rfl, rfl, rfl, rfl⟩
    apply List.mem_filterMap.mpr
    refine ⟨(f, (some o, some n, tz)), Dict.find?_eq_some_mem hfind, ?_⟩
    show (if o = "" ∨ n = "" then none
      else if pyInStr "None" n && !pyInStr "None" o then
        some (mkTypeConflict a0.file_path f o n tz)
      else none) = _
    rw [if_neg (by simp [ho, hn])]
    rw [if_pos (by simp [hin, hout])]

/-- C4 (amended) witness: `int` → `int | None` is recorded for `get_user`
and the conflict is emitted. -/
theorem type_change_conflict_iff_none_added_witness :
    (collectTypeChanges "test.py" fcNone).find? "get_user"
        = some (some "int", some "int | None", "task-a") ∧
    (∃ c ∈ detect_type_change_conflicts taNone fcNone,
        c.conflict_type = "type_change" ∧ c.severity = ConflictSeverity.MEDIUM ∧
        c.tasks_involved = ["task-a"] ∧ c.location = "function:" ++ "get_user") :=
  ⟨by decide,
    (type_change_conflict_iff_none_added "task-a" faUser [] fcNone "get_user"
      "int" "int | None" "task-a" (by decide) (by decide) (by decide)).mpr (by decide)⟩

/-- C10: a function whose recorded return annotation is absent (`None`) in
a task's before or after symbol table is never flagged for that task by
the type-change detector. -/
theorem missing_return_type_not_flagged
    (t0 : String) (a0 : FileAnalysis) (rest : TaskAnalyses) (fc : FileContents)
    (t f : String) (b a : PySource) (B A : SymbolTable)
    (hnd : (fc.map Prod.fst).Nodup)
    (hmem : (t, (b, a)) ∈ fc)
    (hB : build_symbol_table a0.file_path b = some B)
    (hA : build_symbol_table a0.file_path a = some A)
    (habsent : B.function_signatures.find? f = some none ∨
      A.function_signatures.find? f = some none) :
    ∀ c ∈ detect_type_change_conflicts ((t0, a0) :: rest) fc,
      ¬(c.location = "function:" ++ f ∧ c.tasks_involved = [t]) := by
  rw [detect_type_change_cons]
  rintro c hc ⟨hloc, htasks⟩
  obtain ⟨entry, hentry, hconv⟩ := List.mem_filterMap.mp hc
  obtain ⟨f', o?, n?, tz'⟩ := entry
  cases o? with
  | none => simp at hconv
  | some o' =>
    cases n? with
    | none => simp at hconv
    | some n' =>
      by_cases hgate : o' = "" ∨ n' = ""
      · rw [show (match (some o' : Option String), (some n' : Option String) with
          | some old_type, some new_type =>
            if old_type = "" ∨ new_type = "" then none
            else if pyInStr "None" new_type && !pyInStr "None" old_type then
              some (mkTypeConflict a0.file_path f' old_type new_type tz')
            else none
          | _, _ => none) = (if o' = "" ∨ n' = "" then none
            else if pyInStr "None" n' && !pyInStr "None" o' then
              some (mkTypeConflict a0.file_path f' o' n' tz')
            else none) from rfl, if_pos hgate] at hconv
        simp at hconv
      · rw [show (match (some o' : Option String), (some n' : Option String) with
          | some old_type, some new_type =>
            if old_type = "" ∨ new_type = "" then none
            else if pyInStr "None" new_type && !pyInStr "None" old_type then
              some (mkTypeConflict a0.file_path f' old_type new_type tz')
            else none
          | _, _ => none) = (if o' = "" ∨ n' = "" then none
            else if pyInStr "None" n' && !pyInStr "None" o' then
              some (mkTypeConflict a0.file_path f' o' n' tz')
            else none) from rfl, if_neg hgate] at hconv
        by_cases hcond : (pyInStr "None" n' && !pyInStr "None" o') = true
        · rw [if_pos hcond] at hconv
          injection hconv with hconv
          subst hconv
          have hf : f' = f := string_append_left_cancel hloc
          have ht : tz' = t := by
            simpa [mkTypeConflict] using htasks
          obtain ⟨b', a', B', A', hmem', hB', hA', hfB', hfA', hne2⟩ :=
            collectTypeChanges_mem a0.file_path fc f' (some o') (some n') tz' hentry
          have hpe : ((tz', (b', a')) : String × (PySource × PySource)) = (t, (b, a)) :=
            eq_of_mem_of_nodup_fst hnd hmem' hmem ht
          have hb' : b' = b := congrArg (fun q => q.2.1) hpe
          have ha' : a' = a := congrArg (fun q => q.2.2) hpe
          subst hb'
          subst ha'
          have hBB : B' = B := by
            have := hB'.symm.trans hB
            injection this
          have hAA : A' = A := by
            have := hA'.symm.trans hA
            injection this
          subst hBB
          subst hAA
          subst hf
          rcases habsent with hx | hx
          · have := hfB'.symm.trans hx
            injection this with this
            exact Option.noConfusion this
          · have := hfA'.symm.trans hx
            injection this with this
            exact Option.noConfusion this
        · rw [if_neg hcond] at hconv
          simp at hconv

/-- C10 witness: `get_user` has no before-annotation, gains `int | None`,
and no conflict names it for the task. -/
theorem missing_return_type_not_flagged_witness :
    tblNoAnn.function_signatures.find? "get_user" = some none ∧
    (∀ c ∈ detect_type_change_conflicts taNone fcNoAnn,
      ¬(c.location = "function:" ++ "get_user" ∧ c.tasks_involved = ["task-a"])) :=
  ⟨by decide,
    missing_return_type_not_flagged "task-a" faUser [] fcNoAnn "task-a" "get_user"
      (some modNoAnn) (some modIntOrNone) tblNoAnn tblIntOrNone
      (by decide) (by exact List.mem_cons_self _ _) (by decide) (by decide)
      (Or.inl (by decide))⟩

/-- C3 witness: task a removes the `List` import, task b's after-text uses
`List` without importing it, and the CRITICAL conflict is emitted. -/
theorem import_removal_conflict_iff_witness :
    tblUsesList.usages.contains "List" = true ∧
    tblUsesList.imports.contains "List" = false ∧
    (∃ c ∈ detect_import_removal_conflicts taImp fcImp,
        c.conflict_type = "import_removal" ∧ c.severity = ConflictSeverity.CRITICAL ∧
        c.tasks_involved = ["task-a", "task-b"] ∧ c.location = "import:" ++ "List") :=
  ⟨by decide, by decide,
    (import_removal_conflict_iff "task-a" faImpA [("task-b", faImpB)] fcImp
      "List" "task-a" "task-b" (some modBeforeSimple) (some modUsesList) tblUsesList
      (by decide) (by exact List.mem_cons_self _ _) (by decide) (by decide)
      (by decide)).mpr
      (by exact ⟨by decide, by decide⟩)⟩

end AutoClaude
